import Mathlib

/-!
Verification of the templated incremental spreadsheet report engine of
`core_analytics/view/factories/daily_monitor_factory.py`.

The development shallowly embeds the report factory: Python scalar values
become an inductive `PyValue`, an openpyxl cell becomes a record of its value,
its style attributes (opaque handles compared by equality) and its hyperlink,
a worksheet becomes a grid function plus its `max_row`, and a workbook an
ordered association list of named sheets.  The openpyxl library itself is not
part of the repository; the one piece of its behaviour the embedding relies on
is the effect of a cell value assignment (`cell.value = v`), modelled in
`assignValue`: assignment stores the value and, for date/time values whose
cell does not already carry a date format, switches the number format to a
date format; no other style attribute is touched by an assignment.
Environmental failures (exceptions raised inside a `try` block by the
runtime or by openpyxl) are modelled by explicit failure oracles passed to
the embedded functions, mirroring the `except` handlers of the source.
-/

namespace Monitor


/-- Python scalar values as they occur in this pipeline.  `pyFloat` carries an
opaque payload (no claim computes with float arithmetic).  `pyDatetime`,
`pyDate` and `pyTime` carry opaque timestamps.  `pyBytes` carries the text
obtained by `decode("utf-8", errors="ignore")` — the decode itself is opaque
data here, since no claim depends on its internals.  `pyObj` stands for a
value of any other Python type and carries its `str()` rendering. -/
inductive PyValue where
  | pyNone
  | pyBool (b : Bool)
  | pyInt (n : Int)
  | pyFloat (payload : Int)
  | pyStr (s : String)
  | pyDatetime (t : Nat)
  | pyDate (t : Nat)
  | pyTime (t : Nat)
  | pyBytes (decoded : String)
  | pyObj (strForm : String)
  deriving DecidableEq

/-- An openpyxl cell: its stored value, its six style attributes and its
hyperlink.  `border`, `fill`, `font`, `alignment` and `protection` are opaque
style handles (the claims only ever compare them for equality, matching the
"identical to their pre-write values" wording of the spec). -/
structure Cell where
  value : PyValue
  numberFormat : String
  border : Nat
  fill : Nat
  font : Nat
  alignment : Nat
  protection : Nat
  hyperlink : Option String
  deriving DecidableEq

/-- A fresh cell as openpyxl creates it (General number format, default
styles, no value, no hyperlink). -/
def defaultCell : Cell :=
  { value := .pyNone, numberFormat := "General", border := 0, fill := 0,
    font := 0, alignment := 0, protection := 0, hyperlink := Option.none }

/-- Worksheet contents: column index (A = 1) and row index (1-based) to cell. -/
abbrev Grid := Nat → Nat → Cell

/-- A worksheet: its cell grid and its `max_row`. -/
structure Sheet where
  grid : Grid
  maxRow : Nat

/-- A workbook: its sheets in order, each with its title.  openpyxl keeps
titles unique; theorems that need this uniqueness take it as a hypothesis. -/
structure Workbook where
  sheets : List (String × Sheet)

def Workbook.sheetnames (wb : Workbook) : List String := wb.sheets.map Prod.fst

def Workbook.findSheet? (wb : Workbook) (name : String) : Option Sheet :=
  (wb.sheets.find? (fun p => p.1 == name)).map Prod.snd

/-- openpyxl `column_index_from_string`: "A" = 1, ..., "Z" = 26, "AA" = 27. -/
def colIdx (s : String) : Nat :=
  s.toList.foldl (fun a ch => a * 26 + (ch.toNat - 64)) 0

/-- Abstraction of openpyxl `is_date_format` (does the number format contain a
date/time token).  Only its existence matters to the claims: every theorem
below holds for any choice of this predicate. -/
def isDateFormatStr (nf : String) : Bool :=
  nf.toList.any (fun ch => ch == 'y' || ch == 'm' || ch == 'd' || ch == 'h' || ch == 's')

/-- Number formats openpyxl installs when a datetime, date or time value is
assigned to a cell whose number format is not already a date format. -/
def fmtDatetime : String := "yyyy-mm-dd h:mm:ss"

def fmtDate : String := "yyyy-mm-dd"

def fmtTime : String := "h:mm:ss"

/-- Effect of an openpyxl cell value assignment `cell.value = v`
(`Cell._bind_value`): the value is stored; when `v` is a datetime, date or
time value and the cell's number format is not already a date format, the
number format is switched to the corresponding date format; no other style
attribute and no hyperlink is touched by an assignment. -/
def assignValue (cell : Cell) (v : PyValue) : Cell :=
  let nf :=
    match v with
    | .pyDatetime _ => if isDateFormatStr cell.numberFormat then cell.numberFormat else fmtDatetime
    | .pyDate _ => if isDateFormatStr cell.numberFormat then cell.numberFormat else fmtDate
    | .pyTime _ => if isDateFormatStr cell.numberFormat then cell.numberFormat else fmtTime
    | _ => cell.numberFormat
  { cell with value := v, numberFormat := nf }

/-- The format-preserving write primitive of `_fill_daily_data`
(daily_monitor_factory.py lines 160-176): capture the six style attributes,
assign the value, then reapply the captured attributes. -/
def set_cell_value_keep_format (cell : Cell) (v : PyValue) : Cell :=
  let saved_number_format := cell.numberFormat
  let saved_border := cell.border
  let saved_fill := cell.fill
  let saved_font := cell.font
  let saved_alignment := cell.alignment
  let saved_protection := cell.protection
  let c1 := assignValue cell v
  { c1 with numberFormat := saved_number_format, border := saved_border,
            fill := saved_fill, font := saved_font,
            alignment := saved_alignment, protection := saved_protection }

/-- The per-label cell write of step 5 of `_ensure_month_sheet_exists`
(daily_monitor_factory.py lines 133-146): capture number format, border,
fill, font and alignment (the source omits protection here), assign the label
string, then reapply the captured attributes. -/
def writeLabelCell (cell : Cell) (label : String) : Cell :=
  let saved_number_format := cell.numberFormat
  let saved_border := cell.border
  let saved_fill := cell.fill
  let saved_font := cell.font
  let saved_alignment := cell.alignment
  let c1 := assignValue cell (.pyStr label)
  { c1 with numberFormat := saved_number_format, border := saved_border,
            fill := saved_fill, font := saved_font, alignment := saved_alignment }

/-- The per-cell clearing of step 4 of `_ensure_month_sheet_exists`
(daily_monitor_factory.py lines 105-123): capture all six style attributes,
set the value to None, drop the hyperlink when one is present, then reapply
the captured attributes. -/
def clearCellKeepStyle (cell : Cell) : Cell :=
  let saved_number_format := cell.numberFormat
  let saved_border := cell.border
  let saved_fill := cell.fill
  let saved_font := cell.font
  let saved_alignment := cell.alignment
  let saved_protection := cell.protection
  let c1 := assignValue cell .pyNone
  let c2 := if c1.hyperlink.isSome then { c1 with hyperlink := Option.none } else c1
  { c2 with numberFormat := saved_number_format, border := saved_border,
            fill := saved_fill, font := saved_font,
            alignment := saved_alignment, protection := saved_protection }

/-- The six style attributes of a cell, bundled for frame reasoning. -/
def styleOf (cell : Cell) : String × Nat × Nat × Nat × Nat × Nat :=
  (cell.numberFormat, cell.border, cell.fill, cell.font, cell.alignment, cell.protection)

/-- Replace the cell at one grid position. -/
def updateGrid (g : Grid) (c r : Nat) (cell : Cell) : Grid :=
  fun c' r' => if c' = c ∧ r' = r then cell else g c' r'

/-- One in-place cell mutation: the position it targets, and how the cell at
that position is rewritten. -/
structure CellWrite where
  col : Nat
  row : Nat
  op : Cell → Cell

/-- A sequence of in-place cell mutations, applied in order (this is how the
source's cell-by-cell loops act on a worksheet). -/
def foldWrites (g : Grid) (ws : List CellWrite) : Grid :=
  ws.foldl (fun g w => updateGrid g w.col w.row (w.op (g w.col w.row))) g

/-- Python `range(start, start + len)`: the list `[start, ..., start + len - 1]`. -/
def natRange (start len : Nat) : List Nat := (List.range len).map (fun i => start + i)

/-- Concatenation of the lists produced for each element in order (the shape
of the source's nested `for` loops). -/
def concatMap2 (f : α → List β) : List α → List β
  | [] => []
  | a :: l => f a ++ concatMap2 f l

/-- Title of the month sheet for a given year and month: `"<year>年<month>月"`. -/
def mkSheetName (y m : Nat) : String := s!"{y}年{m}月"

/-- Day label written into the label columns: `"<month>月<day>日"`. -/
def mkDayLabel (m d : Nat) : String := s!"{m}月{d}日"

/-- The literal placeholder name of the style-only template sheet. -/
def templateSheetName : String := "YYYY年MM月"

/-- Year and month of `current_date.replace(day=1) - timedelta(days=1)`: the
day before the first of month `m` of year `y` falls in the previous month. -/
def prevYearMonth (y m : Nat) : Nat × Nat :=
  if m = 1 then (y - 1, 12) else (y, m - 1)

def isLeapYear (y : Nat) : Bool :=
  (y % 4 == 0 && y % 100 != 0) || (y % 400 == 0)

/-- Model of `calendar.monthrange(y, m)[1]`: the number of days in month `m` of
(Gregorian) year `y`. -/
def monthLength (y m : Nat) : Nat :=
  if m = 2 then (if isLeapYear y then 29 else 28)
  else if m = 4 ∨ m = 6 ∨ m = 9 ∨ m = 11 then 30
  else 31

/-- A fresh worksheet as `workbook.create_sheet()` makes it. -/
def emptySheet : Sheet := { grid := fun _ _ => defaultCell, maxRow := 1 }

/-- The five column ranges cleared by step 4 of `_ensure_month_sheet_exists`
(daily_monitor_factory.py line 99). -/
def colRangeLetters : List (String × String) :=
  [("A", "E"), ("G", "M"), ("O", "S"), ("U", "AA"), ("AC", "AE")]

/-- The cells visited by the clearing loops of `_ensure_month_sheet_exists`
(lines 100-105): for each of the five column ranges, for each row in
`range(4, 41)`, each column index from the range's start to its end. -/
def clearTargets : List (Nat × Nat) :=
  concatMap2
    (fun p =>
      concatMap2
        (fun r => (natRange (colIdx p.1) (colIdx p.2 + 1 - colIdx p.1)).map (fun c => (c, r)))
        (natRange 4 37))
    colRangeLetters

/-- Step 4 of `_ensure_month_sheet_exists` (lines 100-123): clear value and
hyperlink of every cell of the five fixed column ranges over rows 4-40 while
reapplying the captured style attributes. -/
def clearRanges (g : Grid) : Grid :=
  foldWrites g (clearTargets.map (fun p => ⟨p.1, p.2, clearCellKeepStyle⟩))

/-- The five label columns of step 5 (line 132). -/
def labelColumnLetters : List String := ["A", "G", "O", "U", "AC"]

def labelColumns : List Nat := labelColumnLetters.map colIdx

/-- The cells written by the day-label loop of `_ensure_month_sheet_exists`
(lines 127-148): day `d` of `1..lastDay` goes to row `d + 3`; the loop breaks
when the row passes 40, which (rows being increasing in `d`) is the same as
skipping every day with `d + 3 > 40`; each day writes the five label columns. -/
def labelTargets (lastDay : Nat) : List (Nat × Nat) :=
  concatMap2
    (fun d => if 40 < d + 3 then [] else labelColumns.map (fun c => (c, d + 3)))
    (natRange 1 lastDay)

/-- Step 5 of `_ensure_month_sheet_exists` (lines 127-148): write the label
`"<month>月<day>日"` of day `row - 3` into every label cell, restoring number
format, border, fill, font and alignment around the assignment. -/
def writeLabels (g : Grid) (month lastDay : Nat) : Grid :=
  foldWrites g
    ((labelTargets lastDay).map (fun p => ⟨p.1, p.2, fun cell => writeLabelCell cell (mkDayLabel month (p.2 - 3))⟩))

/-- Source-sheet selection of `_ensure_month_sheet_exists` (lines 77-86):
prefer the placeholder template sheet, else the previous month's sheet, else
none. -/
def sourceSheet? (wb : Workbook) (y m : Nat) : Option Sheet :=
  if templateSheetName ∈ wb.sheetnames then wb.findSheet? templateSheetName
  else
    let pym := prevYearMonth y m
    if mkSheetName pym.1 pym.2 ∈ wb.sheetnames then wb.findSheet? (mkSheetName pym.1 pym.2)
    else Option.none

/-- The sheet the new month sheet starts from: `copy_worksheet` of the chosen
source (lines 88-89, which copies cells and styles), or `create_sheet()`
(line 91) when there is no source. -/
def baseSheet (wb : Workbook) (y m : Nat) : Sheet :=
  match sourceSheet? wb y m with
  | some ws => ws
  | Option.none => emptySheet

/-- Embedding of `_ensure_month_sheet_exists` (daily_monitor_factory.py lines 66-153) for
the month sheet `"<y>年<m>月"`: no-op when the sheet exists; otherwise clone
`baseSheet`, clear the five column ranges over rows 4-40, write the day
labels, retitle the new sheet to the target name and move it to the front of
the sheet order (lines 93-97).  Writing rows up to 40 leaves `max_row` at
least 40.  The body is wrapped in a `try` whose handler only logs; the
embedded operations are total, so no exception path arises here. -/
def ensureMonthSheetExists (wb : Workbook) (y m : Nat) : Workbook :=
  if mkSheetName y m ∈ wb.sheetnames then wb
  else
    { sheets := (mkSheetName y m,
        { grid := writeLabels (clearRanges (baseSheet wb y m).grid) m (monthLength y m),
          maxRow := max (baseSheet wb y m).maxRow 40 }) :: wb.sheets }

/-- One result table of a LogsQueryResult: column names and data rows. -/
structure Table where
  columns : List String
  rows : List (List PyValue)
  deriving DecidableEq

/-- The `data` object of a processed query result (azure LogsQueryResult):
its list of tables. -/
structure LogsData where
  tables : List Table
  deriving DecidableEq

/-- One entry of a results dictionary as built by
`analytics_service.process_analytics_data`: a dict whose `"data"` key holds
the LogsQueryResult (`result.get("data")` is None when the key is absent). -/
structure QueryResult where
  data : Option LogsData
  deriving DecidableEq

/-- Embedding of `ProcessData` (core/models.py): three query-key-indexed result mappings.
Python dicts preserve insertion order and have unique keys; they are embedded
as association lists looked up by first match. -/
structure ProcessData where
  user_count_results : List (String × QueryResult)
  stroke_count_results : List (String × QueryResult)
  unknown_results : List (String × QueryResult)
  deriving DecidableEq

def lookupResult (l : List (String × QueryResult)) (key : String) : Option QueryResult :=
  (l.find? (fun p => p.1 == key)).map Prod.snd

/-- Embedding of `_get_query_result` (daily_monitor_factory.py lines 275-282): check the
user-count, stroke-count and unknown mappings in that order. -/
def getQueryResult (pd : ProcessData) (key : String) : Option QueryResult :=
  match lookupResult pd.user_count_results key with
  | some r => some r
  | Option.none =>
    match lookupResult pd.stroke_count_results key with
    | some r => some r
    | Option.none => lookupResult pd.unknown_results key

/-- Python truthiness of the scalar values that can occur in a cell, used by
`_find_date_row`'s `if cell_value` test. -/
def pyTruthy : PyValue → Bool
  | .pyNone => false
  | .pyBool b => b
  | .pyInt n => n != 0
  | .pyFloat x => x != 0
  | .pyStr s => s != ""
  | .pyBytes s => s != ""
  | .pyDatetime _ => true
  | .pyDate _ => true
  | .pyTime _ => true
  | .pyObj _ => true

/-- Python `str()` of a cell value.  Strings render as themselves and integers
as their decimal numeral; the renderings of the remaining kinds are opaque
tags that no claim depends on (they can never equal a day label). -/
def pyStrOf : PyValue → String
  | .pyNone => "None"
  | .pyBool b => if b then "True" else "False"
  | .pyInt n => toString n
  | .pyFloat x => "float-" ++ toString x
  | .pyStr s => s
  | .pyDatetime t => "datetime-" ++ toString t
  | .pyDate t => "date-" ++ toString t
  | .pyTime t => "time-" ++ toString t
  | .pyBytes s => "bytes-" ++ s
  | .pyObj s => s

/-- Python `str.strip()` with no argument: remove leading and trailing
whitespace. -/
def pyStrip (s : String) : String :=
  ⟨(((s.toList.dropWhile Char.isWhitespace).reverse).dropWhile Char.isWhitespace).reverse⟩

/-- Embedding of `_find_date_row` (daily_monitor_factory.py lines 259-273): scan rows
`1..max_row` of column A and return the first row whose truthy value, rendered
with `str()` and stripped, equals the label `"<m>月<d>日"`. -/
def findDateRow (ws : Sheet) (m d : Nat) : Option Nat :=
  (natRange 1 ws.maxRow).find?
    (fun r =>
      let v := (ws.grid (colIdx "A") r).value
      pyTruthy v && (pyStrip (pyStrOf v) == mkDayLabel m d))

/-- The fixed metric-family column mapping of `_fill_daily_data`
(daily_monitor_factory.py lines 191-201), in source order. -/
def columnMappings : List (String × String × String) :=
  [("daily_alm_chat_count", "B", "C"),
   ("daily_alm_dashboard_count", "D", "E"),
   ("daily_doc_search_count", "H", "I"),
   ("daily_my_assistant_search_count", "P", "Q"),
   ("daily_my_assistant_upload_count", "R", "S"),
   ("daily_market_report_web_count", "V", "W"),
   ("daily_company_analyze_count", "X", "Y"),
   ("daily_market_report_bot_count", "Z", "AA"),
   ("daily_brain_count", "AD", "AE")]

/-- Embedding of a cell assignment addressed by column letter and row, routed through `set_cell_value_keep_format`.
Writing to a row can only enlarge `max_row`. -/
def setCellKeep (ws : Sheet) (colLetter : String) (row : Nat) (v : PyValue) : Sheet :=
  { grid := updateGrid ws.grid (colIdx colLetter) row
      (set_cell_value_keep_format (ws.grid (colIdx colLetter) row) v),
    maxRow := max ws.maxRow row }

/-- Direct cell assignment by column letter and row (plain openpyxl value
assignment, no style capture), as in the `except` handlers. -/
def setCellDirect (ws : Sheet) (colLetter : String) (row : Nat) (v : PyValue) : Sheet :=
  { grid := updateGrid ws.grid (colIdx colLetter) row
      (assignValue (ws.grid (colIdx colLetter) row) v),
    maxRow := max ws.maxRow row }

/-- One iteration of the metric-family loop of `_fill_daily_data`
(daily_monitor_factory.py lines 203-229).  `excRaised key` is the failure
oracle for the family's `try` block: when the environment raises anywhere
inside it (e.g. openpyxl rejecting a value), the `except` handler writes the
sentinel "ERROR" into both columns with direct assignments — the handler's
two writes overwrite whatever partial state the `try` left in those two
cells, which are the only cells the block touches.  Otherwise the guards of
the source decide between the first row's two values and the `(0, 0)`
default. -/
def fillFamily (excRaised : String → Bool) (pd : ProcessData) (row : Nat)
    (ws : Sheet) (fam : String × String × String) : Sheet :=
  if excRaised fam.1 then
    setCellDirect (setCellDirect ws fam.2.1 row (.pyStr "ERROR")) fam.2.2 row (.pyStr "ERROR")
  else
    match getQueryResult pd fam.1 with
    | some result =>
      match result.data with
      | some dta =>
        match dta.tables with
        | t :: _ =>
          match t.rows with
          | r0 :: _ =>
            if 2 ≤ r0.length then
              setCellKeep (setCellKeep ws fam.2.1 row (r0.getD 0 .pyNone)) fam.2.2 row
                (r0.getD 1 .pyNone)
            else
              setCellKeep (setCellKeep ws fam.2.1 row (.pyInt 0)) fam.2.2 row (.pyInt 0)
          | [] => setCellKeep (setCellKeep ws fam.2.1 row (.pyInt 0)) fam.2.2 row (.pyInt 0)
        | [] => setCellKeep (setCellKeep ws fam.2.1 row (.pyInt 0)) fam.2.2 row (.pyInt 0)
      | Option.none => setCellKeep (setCellKeep ws fam.2.1 row (.pyInt 0)) fam.2.2 row (.pyInt 0)
    | Option.none => setCellKeep (setCellKeep ws fam.2.1 row (.pyInt 0)) fam.2.2 row (.pyInt 0)

/-- The truthy guard chain of the family loop, as one partial extraction: the
first row of the first table when the result is present, its data is present
and its table list and row list are non-empty; `none` otherwise. -/
def firstRowOf (pd : ProcessData) (key : String) : Option (List PyValue) :=
  match getQueryResult pd key with
  | some result =>
    match result.data with
    | some dta =>
      match dta.tables with
      | t :: _ =>
        match t.rows with
        | r0 :: _ => some r0
        | [] => Option.none
      | [] => Option.none
    | Option.none => Option.none
  | Option.none => Option.none

/-- The pair of values one family iteration stores in its two columns. -/
def writtenPair (excRaised : String → Bool) (pd : ProcessData) (key : String) :
    PyValue × PyValue :=
  if excRaised key then (.pyStr "ERROR", .pyStr "ERROR")
  else
    match firstRowOf pd key with
    | some r0 =>
      if 2 ≤ r0.length then (r0.getD 0 .pyNone, r0.getD 1 .pyNone)
      else (.pyInt 0, .pyInt 0)
    | Option.none => (.pyInt 0, .pyInt 0)

/-- The four fixed month-to-date cost columns (line 234). -/
def costColLetters : List String := ["J", "K", "L", "M"]

/-- The month-to-date cost block of `_fill_daily_data` (daily_monitor_factory.py
lines 231-254): skipped entirely when the mapping is falsy (None or empty);
otherwise, under its own `try` (oracle `costExcRaised`), the first at most
four entries go to J, K, L, M in mapping order, the cost columns beyond the
entry count are zero-filled, and on an environmental exception the handler
writes "ERROR" into all four columns directly.  (The inner message-building
`try` only logs and never affects the sheet.) -/
def fillCosts (ws : Sheet) (mtd : Option (List (String × PyValue))) (row : Nat)
    (costExcRaised : Bool) : Sheet :=
  match mtd with
  | Option.none => ws
  | some items =>
    if items.isEmpty then ws
    else if costExcRaised then
      costColLetters.foldl (fun ws col => setCellDirect ws col row (.pyStr "ERROR")) ws
    else
      let ws1 := ((items.take costColLetters.length).zip costColLetters).foldl
        (fun ws p => setCellKeep ws p.2 row p.1.2) ws
      (costColLetters.drop items.length).foldl
        (fun ws col => setCellKeep ws col row (.pyInt 0)) ws1

/-- Embedding of `_fill_daily_data` (daily_monitor_factory.py lines 155-257): locate the
month sheet and the target-date row (bailing out silently when either is
missing), run the family loop, then the cost block, and store the mutated
sheet back (openpyxl mutates in place; the embedding substitutes the mutated
sheet at its title).  The outer `try` only logs, and the embedded operations
are total. -/
def fillDailyData (wb : Workbook) (pd : ProcessData) (y m d : Nat)
    (mtd : Option (List (String × PyValue))) (excRaised : String → Bool)
    (costExcRaised : Bool) : Workbook :=
  match wb.findSheet? (mkSheetName y m) with
  | Option.none => wb
  | some ws =>
    match findDateRow ws m d with
    | Option.none => wb
    | some row =>
      let ws1 := columnMappings.foldl (fillFamily excRaised pd row) ws
      let ws2 := fillCosts ws1 mtd row costExcRaised
      { sheets := wb.sheets.map (fun p => if p.1 == mkSheetName y m then (p.1, ws2) else p) }

/-- A worksheet whose column A row 4 carries the day label of August 7 (the
shape `_find_date_row` scans for). -/
def testSheet : Sheet :=
  { grid := fun c r =>
      if c = 1 ∧ r = 4 then { defaultCell with value := .pyStr "8月7日" } else defaultCell,
    maxRow := 4 }

def testWb : Workbook := ⟨[("2025年8月", testSheet)]⟩

/-- Failure oracle of a run in which no family raises. -/
def noFailure : String → Bool := fun _ => false

/-- Failure oracle of a run in which exactly the ALM-chat family raises. -/
def failAlmChat : String → Bool := fun k => k == "daily_alm_chat_count"

/-- A store whose ALM-chat result has a two-column table with two rows. -/
def samplePd : ProcessData :=
  { user_count_results :=
      [("daily_alm_chat_count",
        { data := some { tables :=
            [{ columns := ["x", "y"],
               rows := [[.pyInt 5, .pyInt 9], [.pyInt 7, .pyInt 8]] }] } })],
    stroke_count_results := [],
    unknown_results := [] }

/-- A store whose ALM-chat result is present with one row of a single entry. -/
def shortRowPd : ProcessData :=
  { user_count_results :=
      [("daily_alm_chat_count",
        { data := some { tables := [{ columns := ["x"], rows := [[.pyInt 5]] }] } })],
    stroke_count_results := [],
    unknown_results := [] }

/-- openpyxl's `ILLEGAL_CHARACTERS_RE` (`[\000-\010]|[\013-\014]|[\016-\037]`):
control characters other than tab, line feed and carriage return. -/
def isIllegalChar (ch : Char) : Bool :=
  ch.toNat ≤ 8 || ch.toNat == 11 || ch.toNat == 12 || (14 ≤ ch.toNat && ch.toNat ≤ 31)

/-- Model of `ILLEGAL_CHARACTERS_RE.sub("", value)`: drop every illegal character. -/
def stripIllegal (s : String) : String :=
  ⟨s.toList.filter (fun ch => !(isIllegalChar ch))⟩

/-- Model of `value[:max_len]` applied when `len(value) > max_len`. -/
def truncateTo (s : String) (n : Nat) : String :=
  if n < s.length then ⟨s.toList.take n⟩ else s

/-- Embedding of `_sanitize_excel_value` (daily_monitor_factory.py lines 313-331) with its
default `max_len = 32767` (its only call site passes no other value): None,
datetime/date/time and int/float values (Python booleans are int instances)
pass through; bytes are utf-8-decoded with errors ignored; any other
non-string is rendered with `str()`; strings then have illegal characters
removed and are truncated to 32767 characters. -/
def sanitizeExcelValue (v : PyValue) : PyValue :=
  match v with
  | .pyNone => .pyNone
  | .pyDatetime t => .pyDatetime t
  | .pyDate t => .pyDate t
  | .pyTime t => .pyTime t
  | .pyBool b => .pyBool b
  | .pyInt n => .pyInt n
  | .pyFloat x => .pyFloat x
  | .pyBytes decoded => .pyStr (truncateTo (stripIllegal decoded) 32767)
  | .pyStr s => .pyStr (truncateTo (stripIllegal s) 32767)
  | .pyObj strForm => .pyStr (truncateTo (stripIllegal strForm) 32767)

/-- Python `enumerate(xs, start = n)`. -/
def enumFrom2 (n : Nat) : List α → List (Nat × α)
  | [] => []
  | a :: l => (n, a) :: enumFrom2 (n + 1) l

/-- Embedding of `ws.cell(row=..., column=..., value=...)`: plain value assignment at a
numeric column index. -/
def setCellAt (ws : Sheet) (col row : Nat) (v : PyValue) : Sheet :=
  { grid := updateGrid ws.grid col row (assignValue (ws.grid col row) v),
    maxRow := max ws.maxRow row }

/-- The inner loop of `_fill_history_data_to_sheets` (daily_monitor_factory.py
lines 352-353): write one data row's sanitized values into columns 1.. of one
sheet row. -/
def writeRowCells (ws : Sheet) (rowIdx : Nat) (vals : List PyValue) : Sheet :=
  (enumFrom2 1 vals).foldl (fun ws p => setCellAt ws p.1 rowIdx (sanitizeExcelValue p.2)) ws

/-- The row loop of `_fill_history_data_to_sheets` (daily_monitor_factory.py
lines 351-353): write the table's rows into sheet rows 2.. (row 1 stays the
header), each value sanitized before the write. -/
def fillHistoryRows (ws : Sheet) (tbl : Table) : Sheet :=
  (enumFrom2 2 tbl.rows).foldl (fun ws p => writeRowCells ws p.1 p.2) ws

/-- A 40000-character string starting with an illegal control character. -/
def longMessyString : String :=
  ⟨Char.ofNat 1 :: List.replicate 39999 (Char.ofNat 97)⟩

def longMessyTable : Table := { columns := ["c"], rows := [[.pyStr longMessyString]] }

/-- Failure values the environment can raise in the report orchestration:
a missing template file, a failure to open or save a workbook, or any other
runtime exception. -/
inductive ReportError where
  | templateMissing (path : String)
  | persistFailure (msg : String)
  | otherError (msg : String)
  deriving DecidableEq

/-- Embedding of `_fill_template_with_data` (daily_monitor_factory.py lines 41-64):
`load_workbook` (its outcome supplied by the environment as `loadResult`),
then the month-sheet provisioning and the daily fill — both total, their own
handlers swallow their exceptions — then `workbook.save` (outcome
`saveResult`).  The surrounding try/except logs and re-raises, so it is the
identity on the failure value. -/
def fill_template_with_data (loadResult : Except ReportError Workbook)
    (saveResult : Workbook → Except ReportError Unit) (pd : ProcessData)
    (y m d : Nat) (mtd : Option (List (String × PyValue)))
    (excRaised : String → Bool) (costExcRaised : Bool) : Except ReportError Unit :=
  match loadResult with
  | .error e => .error e
  | .ok wb =>
      saveResult (fillDailyData (ensureMonthSheetExists wb y m) pd y m d mtd excRaised
        costExcRaised)

/-- Embedding of `generate_daily_monitor_report` (daily_monitor_factory.py lines 379-401):
one `try` block runs `_generate_cumulative_usage_report` and then
`_generate_daily_history_report` in sequence; each step's outcome (the path
it returns, or the exception it raises) is supplied by the caller; the
`except` handler logs and re-raises.  The returned flag records whether the
history build step was reached: the sequencing means an exception from the
usage step leaves it `false`. -/
def generate_daily_monitor_report (usageStep : Except ReportError String)
    (historyStep : Except ReportError String) :
    Except ReportError (List String) × Bool :=
  match usageStep with
  | .error e => (.error e, false)
  | .ok usagePath =>
    match historyStep with
    | .error e => (.error e, true)
    | .ok historyPath => (.ok [usagePath, historyPath], true)

/-- C4: `set_cell_value_keep_format` stores the given value and leaves the
cell's number format, border, fill, font, alignment and protection identical
to their pre-write values — for every cell and every value, including
date/time values whose assignment would otherwise switch the number format. -/
theorem set_cell_value_keep_format_spec (cell : Cell) (v : PyValue) :
    (set_cell_value_keep_format cell v).value = v
    ∧ (set_cell_value_keep_format cell v).numberFormat = cell.numberFormat
    ∧ (set_cell_value_keep_format cell v).border = cell.border
    ∧ (set_cell_value_keep_format cell v).fill = cell.fill
    ∧ (set_cell_value_keep_format cell v).font = cell.font
    ∧ (set_cell_value_keep_format cell v).alignment = cell.alignment
    ∧ (set_cell_value_keep_format cell v).protection = cell.protection :=
  ⟨rfl, rfl, rfl, rfl, rfl, rfl, rfl⟩

theorem styleOf_assignValue_pyStr (cell : Cell) (s : String) :
    styleOf (assignValue cell (.pyStr s)) = styleOf cell := rfl

theorem styleOf_writeLabelCell (cell : Cell) (label : String) :
    styleOf (writeLabelCell cell label) = styleOf cell := rfl

theorem value_writeLabelCell (cell : Cell) (label : String) :
    (writeLabelCell cell label).value = .pyStr label := rfl

theorem value_clearCellKeepStyle (cell : Cell) :
    (clearCellKeepStyle cell).value = .pyNone := by
  unfold clearCellKeepStyle
  simp only [assignValue]
  split <;> rfl

theorem styleOf_clearCellKeepStyle (cell : Cell) :
    styleOf (clearCellKeepStyle cell) = styleOf cell := rfl

theorem updateGrid_same (g : Grid) (c r : Nat) (cell : Cell) :
    updateGrid g c r cell c r = cell := by
  simp [updateGrid]

theorem updateGrid_other (g : Grid) (c r : Nat) (cell : Cell) (c' r' : Nat)
    (h : c' ≠ c ∨ r' ≠ r) : updateGrid g c r cell c' r' = g c' r' := by
  rcases h with h | h <;> simp [updateGrid, h]

theorem foldWrites_nil (g : Grid) : foldWrites g [] = g := rfl

theorem foldWrites_cons (g : Grid) (w : CellWrite) (t : List CellWrite) :
    foldWrites g (w :: t) = foldWrites (updateGrid g w.col w.row (w.op (g w.col w.row))) t := rfl

/-- A position no write targets is left untouched. -/
theorem foldWrites_frame : ∀ (ws : List CellWrite) (g : Grid) (c r : Nat),
    (∀ w ∈ ws, w.col ≠ c ∨ w.row ≠ r) → foldWrites g ws c r = g c r := by
  intro ws
  induction ws with
  | nil => intro g c r _; rfl
  | cons w t ih =>
    intro g c r h
    rw [foldWrites_cons, ih _ c r (fun w' hw' => h w' (List.mem_cons_of_mem w hw'))]
    exact updateGrid_other _ _ _ _ _ _ ((h w (List.mem_cons_self w t)).imp Ne.symm Ne.symm)

/-- When every write stores a value that depends only on the position it
targets, any targeted position ends up holding that value, no matter how
often it is written or what the grid held before. -/
theorem foldWrites_value (f : Nat → Nat → PyValue) :
    ∀ (ws : List CellWrite) (g : Grid) (c r : Nat),
    (∀ w ∈ ws, ∀ cell, (w.op cell).value = f w.col w.row) →
    (∃ w ∈ ws, w.col = c ∧ w.row = r) →
    (foldWrites g ws c r).value = f c r := by
  intro ws
  induction ws with
  | nil => intro g c r _ hex; rcases hex with ⟨w, hw, _⟩; cases hw
  | cons w t ih =>
    intro g c r hval hex
    rw [foldWrites_cons]
    by_cases ht : ∃ w' ∈ t, w'.col = c ∧ w'.row = r
    · exact ih _ c r (fun w' hw' => hval w' (List.mem_cons_of_mem w hw')) ht
    · rcases hex with ⟨w0, hw0, hc0, hr0⟩
      rcases List.mem_cons.mp hw0 with rfl | hmem
      · rw [foldWrites_frame t _ c r (by
          intro w' hw'
          by_contra hcontra
          push_neg at hcontra
          exact ht ⟨w', hw', hcontra.1, hcontra.2⟩)]
        subst hc0; subst hr0
        rw [updateGrid_same]
        exact hval w0 (List.mem_cons_self w0 t) _
      · exact absurd ⟨w0, hmem, hc0, hr0⟩ ht

/-- When every write preserves the six style attributes of the cell it
rewrites, the whole sequence preserves them everywhere. -/
theorem foldWrites_style : ∀ (ws : List CellWrite) (g : Grid) (c r : Nat),
    (∀ w ∈ ws, ∀ cell, styleOf (w.op cell) = styleOf cell) →
    styleOf (foldWrites g ws c r) = styleOf (g c r) := by
  intro ws
  induction ws with
  | nil => intro g c r _; rfl
  | cons w t ih =>
    intro g c r h
    rw [foldWrites_cons, ih _ c r (fun w' hw' => h w' (List.mem_cons_of_mem w hw'))]
    by_cases hpos : c = w.col ∧ r = w.row
    · rw [hpos.1, hpos.2, updateGrid_same]
      exact h w (List.mem_cons_self w t) _
    · rw [updateGrid_other _ _ _ _ _ _ (by tauto)]

theorem mem_natRange {m start len : Nat} : m ∈ natRange start len ↔ start ≤ m ∧ m < start + len := by
  simp only [natRange, List.mem_map, List.mem_range]
  constructor
  · rintro ⟨i, hi, rfl⟩; omega
  · rintro ⟨h1, h2⟩; exact ⟨m - start, by omega, by omega⟩

theorem mem_concatMap2 {f : α → List β} {b : β} :
    ∀ {l : List α}, b ∈ concatMap2 f l ↔ ∃ a ∈ l, b ∈ f a := by
  intro l
  induction l with
  | nil => simp [concatMap2]
  | cons a t ih => simp [concatMap2, ih]

theorem mem_labelTargets {c r lastDay : Nat} :
    (c, r) ∈ labelTargets lastDay ↔
      c ∈ labelColumns ∧ ∃ d, 1 ≤ d ∧ d ≤ lastDay ∧ d + 3 ≤ 40 ∧ r = d + 3 := by
  simp only [labelTargets, mem_concatMap2, mem_natRange]
  constructor
  · rintro ⟨d, ⟨hd1, hd2⟩, hmem⟩
    by_cases h40 : 40 < d + 3
    · simp [h40] at hmem
    · simp only [h40, if_false, List.mem_map] at hmem
      rcases hmem with ⟨c0, hc0, heq⟩
      injection heq with h1 h2
      subst h1; subst h2
      exact ⟨hc0, d, by omega, by omega, by omega, rfl⟩
  · rintro ⟨hc, d, hd1, hd2, hd40, rfl⟩
    refine ⟨d, ⟨by omega, by omega⟩, ?_⟩
    simp only [show ¬ (40 < d + 3) by omega, if_false, List.mem_map]
    exact ⟨c, hc, rfl⟩

theorem mem_clearTargets_of_label {c r : Nat} (hc : c ∈ labelColumns)
    (hr4 : 4 ≤ r) (hr40 : r ≤ 40) : (c, r) ∈ clearTargets := by
  have hc' : c = 1 ∨ c = 7 ∨ c = 15 ∨ c = 21 ∨ c = 29 := by
    simpa [labelColumns, labelColumnLetters, colIdx] using hc
  simp only [clearTargets, mem_concatMap2]
  rcases hc' with rfl | rfl | rfl | rfl | rfl
  · exact ⟨("A", "E"), by simp [colRangeLetters], r, mem_natRange.mpr ⟨by omega, by omega⟩,
      List.mem_map.mpr ⟨1, by decide, rfl⟩⟩
  · exact ⟨("G", "M"), by simp [colRangeLetters], r, mem_natRange.mpr ⟨by omega, by omega⟩,
      List.mem_map.mpr ⟨7, by decide, rfl⟩⟩
  · exact ⟨("O", "S"), by simp [colRangeLetters], r, mem_natRange.mpr ⟨by omega, by omega⟩,
      List.mem_map.mpr ⟨15, by decide, rfl⟩⟩
  · exact ⟨("U", "AA"), by simp [colRangeLetters], r, mem_natRange.mpr ⟨by omega, by omega⟩,
      List.mem_map.mpr ⟨21, by decide, rfl⟩⟩
  · exact ⟨("AC", "AE"), by simp [colRangeLetters], r, mem_natRange.mpr ⟨by omega, by omega⟩,
      List.mem_map.mpr ⟨29, by decide, rfl⟩⟩

theorem findSheet?_cons_self (name : String) (sh : Sheet) (rest : List (String × Sheet)) :
    Workbook.findSheet? ⟨(name, sh) :: rest⟩ name = some sh := by
  unfold Workbook.findSheet?
  rw [List.find?_cons_of_pos _ (by simp)]
  rfl

theorem ensure_of_mem {wb : Workbook} {y m : Nat} (h : mkSheetName y m ∈ wb.sheetnames) :
    ensureMonthSheetExists wb y m = wb := by
  unfold ensureMonthSheetExists
  rw [if_pos h]

theorem ensure_of_not_mem {wb : Workbook} {y m : Nat} (h : mkSheetName y m ∉ wb.sheetnames) :
    ensureMonthSheetExists wb y m =
      ⟨(mkSheetName y m,
        { grid := writeLabels (clearRanges (baseSheet wb y m).grid) m (monthLength y m),
          maxRow := max (baseSheet wb y m).maxRow 40 }) :: wb.sheets⟩ := by
  unfold ensureMonthSheetExists
  rw [if_neg h]

/-- C2: the day-label writing step of month-sheet provisioning leaves every
style attribute of every cell — number format, border, fill, font, alignment
and protection — equal to its value before the step.  The loop restores the
first five attributes around each assignment; protection is preserved because
a string assignment never touches it. -/
theorem label_phase_preserves_styles (g : Grid) (month lastDay c r : Nat) :
    (writeLabels g month lastDay c r).numberFormat = (g c r).numberFormat
    ∧ (writeLabels g month lastDay c r).border = (g c r).border
    ∧ (writeLabels g month lastDay c r).fill = (g c r).fill
    ∧ (writeLabels g month lastDay c r).font = (g c r).font
    ∧ (writeLabels g month lastDay c r).alignment = (g c r).alignment
    ∧ (writeLabels g month lastDay c r).protection = (g c r).protection := by
  have h : styleOf (writeLabels g month lastDay c r) = styleOf (g c r) := by
    unfold writeLabels
    apply foldWrites_style
    intro w hw cell
    rcases List.mem_map.mp hw with ⟨p, _, rfl⟩
    exact styleOf_writeLabelCell _ _
  simpa only [styleOf, Prod.mk.injEq] using h

/-- C3: month-sheet provisioning is idempotent — a second invocation for the
same month returns the workbook unchanged, and after the first invocation
exactly one sheet carries the month's name (given openpyxl's invariant that
sheet titles are unique). -/
theorem ensure_month_sheet_idempotent (wb : Workbook) (y m : Nat)
    (hnd : wb.sheetnames.Nodup) :
    ensureMonthSheetExists (ensureMonthSheetExists wb y m) y m = ensureMonthSheetExists wb y m
    ∧ (ensureMonthSheetExists wb y m).sheetnames.count (mkSheetName y m) = 1 := by
  by_cases h : mkSheetName y m ∈ wb.sheetnames
  · rw [ensure_of_mem h, ensure_of_mem h]
    exact ⟨rfl, List.count_eq_one_of_mem hnd h⟩
  · have hn : (ensureMonthSheetExists wb y m).sheetnames
        = mkSheetName y m :: wb.sheetnames := by
      rw [ensure_of_not_mem h]
      rfl
    have hmem : mkSheetName y m ∈ (ensureMonthSheetExists wb y m).sheetnames := by
      rw [hn]; exact List.mem_cons_self _ _
    refine ⟨ensure_of_mem hmem, ?_⟩
    rw [hn]
    simp [List.count_cons_self, List.count_eq_zero.mpr h]

theorem ensure_month_sheet_idempotent_witness :
    (Workbook.sheetnames ⟨[]⟩).Nodup
    ∧ (ensureMonthSheetExists (ensureMonthSheetExists ⟨[]⟩ 2025 8) 2025 8
        = ensureMonthSheetExists ⟨[]⟩ 2025 8
      ∧ (ensureMonthSheetExists ⟨[]⟩ 2025 8).sheetnames.count (mkSheetName 2025 8) = 1) :=
  ⟨by simp [Workbook.sheetnames],
    ensure_month_sheet_idempotent ⟨[]⟩ 2025 8 (by simp [Workbook.sheetnames])⟩

/-- C5: when provisioning creates the sheet for a 30-day month, every label
column holds the label `"<m>月<d>日"` of day `d` at row `d + 3` for
`d = 1..30`, and rows 34-40 of the label columns hold no value at all. -/
theorem thirty_day_month_labels (wb : Workbook) (y m : Nat)
    (habs : mkSheetName y m ∉ wb.sheetnames) (h30 : monthLength y m = 30) :
    ∃ sh, (ensureMonthSheetExists wb y m).findSheet? (mkSheetName y m) = some sh
      ∧ (∀ d, 1 ≤ d → d ≤ 30 → ∀ c ∈ labelColumns,
          (sh.grid c (d + 3)).value = PyValue.pyStr (mkDayLabel m d))
      ∧ (∀ r, 34 ≤ r → r ≤ 40 → ∀ c ∈ labelColumns,
          (sh.grid c r).value = PyValue.pyNone) := by
  refine ⟨_, by rw [ensure_of_not_mem habs]; exact findSheet?_cons_self _ _ _, ?_, ?_⟩
  · intro d hd1 hd2 c hc
    show (writeLabels (clearRanges (baseSheet wb y m).grid) m (monthLength y m) c (d + 3)).value = _
    rw [h30]
    unfold writeLabels
    have hv := foldWrites_value (fun _ row => PyValue.pyStr (mkDayLabel m (row - 3)))
      ((labelTargets 30).map
        (fun p => ⟨p.1, p.2, fun cell => writeLabelCell cell (mkDayLabel m (p.2 - 3))⟩))
      (clearRanges (baseSheet wb y m).grid) c (d + 3)
      (by
        intro w hw cell
        rcases List.mem_map.mp hw with ⟨p, _, rfl⟩
        exact value_writeLabelCell _ _)
      ⟨⟨c, d + 3, fun cell => writeLabelCell cell (mkDayLabel m (d + 3 - 3))⟩,
        List.mem_map.mpr
          ⟨(c, d + 3), mem_labelTargets.mpr ⟨hc, d, hd1, hd2, by omega, rfl⟩, rfl⟩,
        rfl, rfl⟩
    simpa only [Nat.add_sub_cancel] using hv
  · intro r hr34 hr40 c hc
    show (writeLabels (clearRanges (baseSheet wb y m).grid) m (monthLength y m) c r).value = _
    rw [h30]
    unfold writeLabels
    rw [foldWrites_frame _ _ c r (by
      intro w hw
      rcases List.mem_map.mp hw with ⟨p, hp, rfl⟩
      obtain ⟨pc, pr⟩ := p
      rcases mem_labelTargets.mp hp with ⟨_, d, _, hd2, _, hrow⟩
      right
      show pr ≠ r
      omega)]
    unfold clearRanges
    exact foldWrites_value (fun _ _ => PyValue.pyNone) _ _ c r
      (by
        intro w hw cell
        rcases List.mem_map.mp hw with ⟨p, _, rfl⟩
        exact value_clearCellKeepStyle _)
      ⟨⟨c, r, clearCellKeepStyle⟩,
        List.mem_map.mpr ⟨(c, r), mem_clearTargets_of_label hc (by omega) hr40, rfl⟩,
        rfl, rfl⟩

theorem value_assignValue (cell : Cell) (v : PyValue) : (assignValue cell v).value = v := rfl

theorem value_set_cell_keep (cell : Cell) (v : PyValue) :
    (set_cell_value_keep_format cell v).value = v := rfl

theorem grid_setCellKeep_same (ws : Sheet) (colLetter : String) (row : Nat) (v : PyValue) :
    (setCellKeep ws colLetter row v).grid (colIdx colLetter) row
      = set_cell_value_keep_format (ws.grid (colIdx colLetter) row) v := by
  simp [setCellKeep, updateGrid_same]

theorem grid_setCellKeep_other (ws : Sheet) (colLetter : String) (row : Nat) (v : PyValue)
    (c r : Nat) (h : c ≠ colIdx colLetter ∨ r ≠ row) :
    (setCellKeep ws colLetter row v).grid c r = ws.grid c r := by
  simp only [setCellKeep]
  exact updateGrid_other _ _ _ _ _ _ h

theorem grid_setCellDirect_same (ws : Sheet) (colLetter : String) (row : Nat) (v : PyValue) :
    (setCellDirect ws colLetter row v).grid (colIdx colLetter) row
      = assignValue (ws.grid (colIdx colLetter) row) v := by
  simp [setCellDirect, updateGrid_same]

theorem grid_setCellDirect_other (ws : Sheet) (colLetter : String) (row : Nat) (v : PyValue)
    (c r : Nat) (h : c ≠ colIdx colLetter ∨ r ≠ row) :
    (setCellDirect ws colLetter row v).grid c r = ws.grid c r := by
  simp only [setCellDirect]
  exact updateGrid_other _ _ _ _ _ _ h

/-- The two values the double write of one family branch leaves in the two
target cells (format-preserving variant). -/
theorem keepkeep_values (ws : Sheet) (x y : String) (row : Nat) (vx vy : PyValue)
    (hxy : colIdx x ≠ colIdx y) :
    ((setCellKeep (setCellKeep ws x row vx) y row vy).grid (colIdx x) row).value = vx
    ∧ ((setCellKeep (setCellKeep ws x row vx) y row vy).grid (colIdx y) row).value = vy := by
  constructor
  · rw [grid_setCellKeep_other _ _ _ _ _ _ (Or.inl hxy), grid_setCellKeep_same]
    exact value_set_cell_keep _ _
  · rw [grid_setCellKeep_same]
    exact value_set_cell_keep _ _

/-- The two values the double write of the except handler leaves in the two
target cells (direct-assignment variant). -/
theorem directdirect_values (ws : Sheet) (x y : String) (row : Nat) (vx vy : PyValue)
    (hxy : colIdx x ≠ colIdx y) :
    ((setCellDirect (setCellDirect ws x row vx) y row vy).grid (colIdx x) row).value = vx
    ∧ ((setCellDirect (setCellDirect ws x row vx) y row vy).grid (colIdx y) row).value = vy := by
  constructor
  · rw [grid_setCellDirect_other _ _ _ _ _ _ (Or.inl hxy), grid_setCellDirect_same]
    exact value_assignValue _ _
  · rw [grid_setCellDirect_same]
    exact value_assignValue _ _

theorem fillFamily_frame (excRaised : String → Bool) (pd : ProcessData) (row : Nat)
    (ws : Sheet) (fam : String × String × String) (c r : Nat)
    (h : (c ≠ colIdx fam.2.1 ∧ c ≠ colIdx fam.2.2) ∨ r ≠ row) :
    (fillFamily excRaised pd row ws fam).grid c r = ws.grid c r := by
  have hx : c ≠ colIdx fam.2.1 ∨ r ≠ row := by tauto
  have hy : c ≠ colIdx fam.2.2 ∨ r ≠ row := by tauto
  unfold fillFamily
  split
  · rw [grid_setCellDirect_other _ _ _ _ _ _ hy, grid_setCellDirect_other _ _ _ _ _ _ hx]
  · split
    · split
      · split
        · split
          · split
            · rw [grid_setCellKeep_other _ _ _ _ _ _ hy, grid_setCellKeep_other _ _ _ _ _ _ hx]
            · rw [grid_setCellKeep_other _ _ _ _ _ _ hy, grid_setCellKeep_other _ _ _ _ _ _ hx]
          · rw [grid_setCellKeep_other _ _ _ _ _ _ hy, grid_setCellKeep_other _ _ _ _ _ _ hx]
        · rw [grid_setCellKeep_other _ _ _ _ _ _ hy, grid_setCellKeep_other _ _ _ _ _ _ hx]
      · rw [grid_setCellKeep_other _ _ _ _ _ _ hy, grid_setCellKeep_other _ _ _ _ _ _ hx]
    · rw [grid_setCellKeep_other _ _ _ _ _ _ hy, grid_setCellKeep_other _ _ _ _ _ _ hx]

/-- One family iteration leaves exactly `writtenPair` in its two columns. -/
theorem fillFamily_self (excRaised : String → Bool) (pd : ProcessData) (row : Nat)
    (ws : Sheet) (key xCol yCol : String) (hxy : colIdx xCol ≠ colIdx yCol) :
    ((fillFamily excRaised pd row ws (key, xCol, yCol)).grid (colIdx xCol) row).value
        = (writtenPair excRaised pd key).1
    ∧ ((fillFamily excRaised pd row ws (key, xCol, yCol)).grid (colIdx yCol) row).value
        = (writtenPair excRaised pd key).2 := by
  unfold fillFamily writtenPair firstRowOf
  by_cases hex : excRaised key
  · rw [if_pos hex, if_pos hex]
    exact directdirect_values ws xCol yCol row (.pyStr "ERROR") (.pyStr "ERROR") hxy
  · rw [if_neg hex, if_neg hex]
    cases getQueryResult pd key with
    | none => exact keepkeep_values ws xCol yCol row (.pyInt 0) (.pyInt 0) hxy
    | some result =>
      dsimp only
      cases result.data with
      | none => exact keepkeep_values ws xCol yCol row (.pyInt 0) (.pyInt 0) hxy
      | some dta =>
        dsimp only
        cases dta.tables with
        | nil => exact keepkeep_values ws xCol yCol row (.pyInt 0) (.pyInt 0) hxy
        | cons t ts =>
          dsimp only
          cases t.rows with
          | nil => exact keepkeep_values ws xCol yCol row (.pyInt 0) (.pyInt 0) hxy
          | cons r0 rs =>
            dsimp only
            by_cases hlen : 2 ≤ r0.length
            · rw [if_pos hlen, if_pos hlen]
              exact keepkeep_values ws xCol yCol row (r0.getD 0 .pyNone) (r0.getD 1 .pyNone) hxy
            · rw [if_neg hlen, if_neg hlen]
              exact keepkeep_values ws xCol yCol row (.pyInt 0) (.pyInt 0) hxy

theorem famFold_frame (excRaised : String → Bool) (pd : ProcessData) (row : Nat) :
    ∀ (l : List (String × String × String)) (ws : Sheet) (c r : Nat),
    (∀ fam ∈ l, (c ≠ colIdx fam.2.1 ∧ c ≠ colIdx fam.2.2) ∨ r ≠ row) →
    (l.foldl (fillFamily excRaised pd row) ws).grid c r = ws.grid c r := by
  intro l
  induction l with
  | nil => intro ws c r _; rfl
  | cons fam t ih =>
    intro ws c r h
    rw [List.foldl_cons, ih _ c r (fun f hf => h f (List.mem_cons_of_mem fam hf)),
        fillFamily_frame _ _ _ _ _ _ _ (h fam (List.mem_cons_self fam t))]

theorem famFold_value (excRaised : String → Bool) (pd : ProcessData) (row : Nat) :
    ∀ (l : List (String × String × String)) (ws : Sheet) (key xCol yCol : String),
    (key, xCol, yCol) ∈ l →
    l.Pairwise (fun a b =>
      colIdx a.2.1 ≠ colIdx b.2.1 ∧ colIdx a.2.1 ≠ colIdx b.2.2
      ∧ colIdx a.2.2 ≠ colIdx b.2.1 ∧ colIdx a.2.2 ≠ colIdx b.2.2) →
    (∀ f ∈ l, colIdx f.2.1 ≠ colIdx f.2.2) →
    ((l.foldl (fillFamily excRaised pd row) ws).grid (colIdx xCol) row).value
        = (writtenPair excRaised pd key).1
    ∧ ((l.foldl (fillFamily excRaised pd row) ws).grid (colIdx yCol) row).value
        = (writtenPair excRaised pd key).2 := by
  intro l
  induction l with
  | nil => intro ws key x y hmem _ _; cases hmem
  | cons fam t ih =>
    intro ws key x y hmem hpair hxy
    obtain ⟨hhead, htail⟩ := List.pairwise_cons.mp hpair
    rcases List.mem_cons.mp hmem with heq | hmem'
    · subst heq
      rw [List.foldl_cons]
      have hself := fillFamily_self excRaised pd row ws key x y
        (hxy (key, x, y) (List.mem_cons_self _ t))
      constructor
      · rw [famFold_frame excRaised pd row t _ (colIdx x) row
          (fun f hf => Or.inl ⟨(hhead f hf).1, (hhead f hf).2.1⟩)]
        exact hself.1
      · rw [famFold_frame excRaised pd row t _ (colIdx y) row
          (fun f hf => Or.inl ⟨(hhead f hf).2.2.1, (hhead f hf).2.2.2⟩)]
        exact hself.2
    · rw [List.foldl_cons]
      exact ih _ key x y hmem' htail (fun f hf => hxy f (List.mem_cons_of_mem fam hf))

/-- Generic frame lemma for the cost-block folds: a fold of single-column
writes at a fixed row leaves every other position untouched. -/
theorem foldl_colWrites_frame {β : Type} (w : Sheet → String → Nat → PyValue → Sheet)
    (hw : ∀ ws col row v c r, (c ≠ colIdx col ∨ r ≠ row) → (w ws col row v).grid c r = ws.grid c r)
    (row : Nat) (vOf : β → PyValue) (colOf : β → String) :
    ∀ (l : List β) (ws : Sheet) (c r : Nat),
    (∀ b ∈ l, c ≠ colIdx (colOf b) ∨ r ≠ row) →
    ((l.foldl (fun ws b => w ws (colOf b) row (vOf b)) ws).grid c r) = ws.grid c r := by
  intro l
  induction l with
  | nil => intro ws c r _; rfl
  | cons b t ih =>
    intro ws c r h
    rw [List.foldl_cons, ih _ c r (fun b' hb' => h b' (List.mem_cons_of_mem b hb')),
        hw _ _ _ _ _ _ (h b (List.mem_cons_self b t))]

theorem fillCosts_frame (ws : Sheet) (mtd : Option (List (String × PyValue))) (row : Nat)
    (costExcRaised : Bool) (c r : Nat)
    (h : ∀ col ∈ costColLetters, c ≠ colIdx col ∨ r ≠ row) :
    (fillCosts ws mtd row costExcRaised).grid c r = ws.grid c r := by
  unfold fillCosts
  cases mtd with
  | none => rfl
  | some items =>
    dsimp only
    split
    · rfl
    · split
      · exact foldl_colWrites_frame setCellDirect grid_setCellDirect_other row
          (fun (_ : String) => .pyStr "ERROR") (fun col => col) costColLetters ws c r h
      · rw [foldl_colWrites_frame setCellKeep grid_setCellKeep_other row
            (fun (_ : String) => .pyInt 0) (fun col => col) _ _ c r
            (fun b hb => h b (List.mem_of_mem_drop hb))]
        exact foldl_colWrites_frame setCellKeep grid_setCellKeep_other row
          (fun (p : (String × PyValue) × String) => p.1.2) (fun p => p.2) _ ws c r
          (by rintro ⟨bi, bc⟩ hb; exact h bc (List.of_mem_zip hb).2)

theorem find?_map_update : ∀ (l : List (String × Sheet)) (name : String) (ws2 : Sheet),
    (l.find? (fun p => p.1 == name)).isSome →
    (l.map (fun p => if p.1 == name then (p.1, ws2) else p)).find? (fun p => p.1 == name)
      = some (name, ws2) := by
  intro l
  induction l with
  | nil => intro name ws2 h; simp at h
  | cons p t ih =>
    intro name ws2 h
    by_cases hp : (p.1 == name) = true
    · rw [List.map_cons, if_pos hp, List.find?_cons_of_pos _ (by simpa using hp)]
      have hname : p.1 = name := by simpa using hp
      rw [hname]
    · rw [List.map_cons, if_neg hp, List.find?_cons_of_neg _ (by simpa using hp)]
      apply ih
      rwa [List.find?_cons_of_neg _ (by simpa using hp)] at h

/-- Shape of `_fill_daily_data` when both the month sheet and the date row are
found: the sheet at the month title becomes the family fold followed by the
cost block. -/
theorem fillDailyData_found (wb : Workbook) (pd : ProcessData) (y m d : Nat)
    (mtd : Option (List (String × PyValue))) (excRaised : String → Bool)
    (costExcRaised : Bool) (ws : Sheet) (row : Nat)
    (hws : wb.findSheet? (mkSheetName y m) = some ws)
    (hrow : findDateRow ws m d = some row) :
    (fillDailyData wb pd y m d mtd excRaised costExcRaised).findSheet? (mkSheetName y m)
      = some (fillCosts (columnMappings.foldl (fillFamily excRaised pd row) ws) mtd row
          costExcRaised) := by
  unfold fillDailyData
  rw [hws]
  dsimp only
  rw [hrow]
  dsimp only
  have hws' := hws
  unfold Workbook.findSheet? at hws'
  rcases Option.map_eq_some'.mp hws' with ⟨pr, hpr, _⟩
  unfold Workbook.findSheet?
  rw [find?_map_update _ _ _ (by rw [hpr]; rfl)]
  rfl

theorem value_setCellKeep_at (ws : Sheet) (colLetter : String) (row : Nat) (v : PyValue)
    (c : Nat) (hc : c = colIdx colLetter) :
    ((setCellKeep ws colLetter row v).grid c row).value = v := by
  subst hc
  rw [grid_setCellKeep_same]
  exact value_set_cell_keep _ _

/-- C6 counterexample: a metric-family result that is present with one row
whose first row has a single entry.  The update writes `(0, 0)` into columns
B and C — values not supplied by the first row, which does not even contain
two entries — refuting the claim that a present result with at least one row
always has its first row supply the two written values. -/
theorem first_row_sampling_fails_on_short_row :
    firstRowOf shortRowPd "daily_alm_chat_count" = some [PyValue.pyInt 5]
    ∧ ((fillDailyData testWb shortRowPd 2025 8 7 Option.none noFailure false).findSheet?
          (mkSheetName 2025 8)).map
        (fun sh => ((sh.grid (colIdx "B") 4).value, (sh.grid (colIdx "C") 4).value))
        = some (PyValue.pyInt 0, PyValue.pyInt 0)
    ∧ ¬ ∃ v1 v2 rest, ([PyValue.pyInt 5] : List PyValue) = v1 :: v2 :: rest := by
  refine ⟨by decide, by decide, ?_⟩
  rintro ⟨v1, v2, rest, h⟩
  simp at h

/-- C6 (amended): for every metric family, once the month sheet and target
row are located and the family's own try block does not raise: a result that
is absent (or has no data object, no table, or no rows) yields `(0, 0)` in the
family's two columns — the write is never skipped; a present first row with
fewer than two entries also yields `(0, 0)`; and a present first row with at
least two entries supplies, alone, the two values written. -/
theorem family_values_written (wb : Workbook) (pd : ProcessData) (y m d : Nat)
    (mtd : Option (List (String × PyValue))) (excRaised : String → Bool)
    (costExcRaised : Bool) (ws : Sheet) (row : Nat) (key xCol yCol : String)
    (hws : wb.findSheet? (mkSheetName y m) = some ws)
    (hrow : findDateRow ws m d = some row)
    (hfam : (key, xCol, yCol) ∈ columnMappings)
    (hok : excRaised key = false) :
    ∃ ws2, (fillDailyData wb pd y m d mtd excRaised costExcRaised).findSheet?
        (mkSheetName y m) = some ws2
      ∧ (firstRowOf pd key = Option.none →
          (ws2.grid (colIdx xCol) row).value = PyValue.pyInt 0
          ∧ (ws2.grid (colIdx yCol) row).value = PyValue.pyInt 0)
      ∧ (∀ r0, firstRowOf pd key = some r0 → r0.length < 2 →
          (ws2.grid (colIdx xCol) row).value = PyValue.pyInt 0
          ∧ (ws2.grid (colIdx yCol) row).value = PyValue.pyInt 0)
      ∧ (∀ v1 v2 rest, firstRowOf pd key = some (v1 :: v2 :: rest) →
          (ws2.grid (colIdx xCol) row).value = v1
          ∧ (ws2.grid (colIdx yCol) row).value = v2) := by
  have hxyall : ∀ f ∈ columnMappings, colIdx f.2.1 ≠ colIdx f.2.2 := by decide
  have hpair : columnMappings.Pairwise (fun a b =>
      colIdx a.2.1 ≠ colIdx b.2.1 ∧ colIdx a.2.1 ≠ colIdx b.2.2
      ∧ colIdx a.2.2 ≠ colIdx b.2.1 ∧ colIdx a.2.2 ≠ colIdx b.2.2) := by decide
  have hcost : ∀ f ∈ columnMappings, ∀ col ∈ costColLetters,
      colIdx f.2.1 ≠ colIdx col ∧ colIdx f.2.2 ≠ colIdx col := by decide
  refine ⟨_, fillDailyData_found wb pd y m d mtd excRaised costExcRaised ws row hws hrow,
    ?_, ?_, ?_⟩
  all_goals
    have hv := famFold_value excRaised pd row columnMappings ws key xCol yCol hfam hpair hxyall
    have hfx : (fillCosts (columnMappings.foldl (fillFamily excRaised pd row) ws) mtd row
          costExcRaised).grid (colIdx xCol) row
        = (columnMappings.foldl (fillFamily excRaised pd row) ws).grid (colIdx xCol) row :=
      fillCosts_frame _ _ _ _ _ _ (fun col hcol => Or.inl ((hcost _ hfam col hcol).1))
    have hfy : (fillCosts (columnMappings.foldl (fillFamily excRaised pd row) ws) mtd row
          costExcRaised).grid (colIdx yCol) row
        = (columnMappings.foldl (fillFamily excRaised pd row) ws).grid (colIdx yCol) row :=
      fillCosts_frame _ _ _ _ _ _ (fun col hcol => Or.inl ((hcost _ hfam col hcol).2))
  · intro hfr
    have hwp : writtenPair excRaised pd key = (PyValue.pyInt 0, PyValue.pyInt 0) := by
      unfold writtenPair
      rw [if_neg (by simp [hok]), hfr]
    rw [hfx, hfy, hv.1, hv.2, hwp]
    exact ⟨rfl, rfl⟩
  · intro r0 hfr hlen
    have hwp : writtenPair excRaised pd key = (PyValue.pyInt 0, PyValue.pyInt 0) := by
      unfold writtenPair
      rw [if_neg (by simp [hok]), hfr]
      dsimp only
      rw [if_neg (by omega)]
    rw [hfx, hfy, hv.1, hv.2, hwp]
    exact ⟨rfl, rfl⟩
  · intro v1 v2 rest hfr
    have hwp : writtenPair excRaised pd key = (v1, v2) := by
      unfold writtenPair
      rw [if_neg (by simp [hok]), hfr]
      dsimp only
      rw [if_pos (by simp)]
      simp
    rw [hfx, hfy, hv.1, hv.2, hwp]
    exact ⟨rfl, rfl⟩

theorem family_values_written_witness :
    testWb.findSheet? (mkSheetName 2025 8) = some testSheet
    ∧ findDateRow testSheet 8 7 = some 4
    ∧ ("daily_alm_chat_count", "B", "C") ∈ columnMappings
    ∧ noFailure "daily_alm_chat_count" = false
    ∧ ∃ ws2, (fillDailyData testWb samplePd 2025 8 7 Option.none noFailure false).findSheet?
          (mkSheetName 2025 8) = some ws2
        ∧ (firstRowOf samplePd "daily_alm_chat_count" = Option.none →
            (ws2.grid (colIdx "B") 4).value = PyValue.pyInt 0
            ∧ (ws2.grid (colIdx "C") 4).value = PyValue.pyInt 0)
        ∧ (∀ r0, firstRowOf samplePd "daily_alm_chat_count" = some r0 → r0.length < 2 →
            (ws2.grid (colIdx "B") 4).value = PyValue.pyInt 0
            ∧ (ws2.grid (colIdx "C") 4).value = PyValue.pyInt 0)
        ∧ (∀ v1 v2 rest, firstRowOf samplePd "daily_alm_chat_count" = some (v1 :: v2 :: rest) →
            (ws2.grid (colIdx "B") 4).value = v1 ∧ (ws2.grid (colIdx "C") 4).value = v2) :=
  ⟨rfl, by decide, by decide, rfl,
    family_values_written testWb samplePd 2025 8 7 Option.none noFailure false testSheet 4
      "daily_alm_chat_count" "B" "C" rfl (by decide) (by decide) rfl⟩

/-- C7: when the environment raises inside one family's try block, the except
handler leaves the sentinel string "ERROR" in both of that family's columns,
the update still returns normally (the embedded function is total: the
handler swallows the exception), and every other family's columns still
receive exactly the values its own iteration writes. -/
theorem family_error_sentinel (wb : Workbook) (pd : ProcessData) (y m d : Nat)
    (mtd : Option (List (String × PyValue))) (excRaised : String → Bool)
    (costExcRaised : Bool) (ws : Sheet) (row : Nat) (key xCol yCol : String)
    (hws : wb.findSheet? (mkSheetName y m) = some ws)
    (hrow : findDateRow ws m d = some row)
    (hfam : (key, xCol, yCol) ∈ columnMappings)
    (hexc : excRaised key = true) :
    ∃ ws2, (fillDailyData wb pd y m d mtd excRaised costExcRaised).findSheet?
        (mkSheetName y m) = some ws2
      ∧ (ws2.grid (colIdx xCol) row).value = PyValue.pyStr "ERROR"
      ∧ (ws2.grid (colIdx yCol) row).value = PyValue.pyStr "ERROR"
      ∧ ∀ key2 x2 y2, (key2, x2, y2) ∈ columnMappings → key2 ≠ key →
          (ws2.grid (colIdx x2) row).value = (writtenPair excRaised pd key2).1
          ∧ (ws2.grid (colIdx y2) row).value = (writtenPair excRaised pd key2).2 := by
  have hxyall : ∀ f ∈ columnMappings, colIdx f.2.1 ≠ colIdx f.2.2 := by decide
  have hpair : columnMappings.Pairwise (fun a b =>
      colIdx a.2.1 ≠ colIdx b.2.1 ∧ colIdx a.2.1 ≠ colIdx b.2.2
      ∧ colIdx a.2.2 ≠ colIdx b.2.1 ∧ colIdx a.2.2 ≠ colIdx b.2.2) := by decide
  have hcost : ∀ f ∈ columnMappings, ∀ col ∈ costColLetters,
      colIdx f.2.1 ≠ colIdx col ∧ colIdx f.2.2 ≠ colIdx col := by decide
  refine ⟨_, fillDailyData_found wb pd y m d mtd excRaised costExcRaised ws row hws hrow,
    ?_, ?_, ?_⟩
  · have hv := famFold_value excRaised pd row columnMappings ws key xCol yCol hfam hpair hxyall
    rw [fillCosts_frame _ _ _ _ _ _ (fun col hcol => Or.inl ((hcost _ hfam col hcol).1)),
      hv.1]
    unfold writtenPair
    rw [if_pos hexc]
  · have hv := famFold_value excRaised pd row columnMappings ws key xCol yCol hfam hpair hxyall
    rw [fillCosts_frame _ _ _ _ _ _ (fun col hcol => Or.inl ((hcost _ hfam col hcol).2)),
      hv.2]
    unfold writtenPair
    rw [if_pos hexc]
  · intro key2 x2 y2 hfam2 _
    have hv := famFold_value excRaised pd row columnMappings ws key2 x2 y2 hfam2 hpair hxyall
    exact ⟨by
        rw [fillCosts_frame _ _ _ _ _ _ (fun col hcol => Or.inl ((hcost _ hfam2 col hcol).1))]
        exact hv.1,
      by
        rw [fillCosts_frame _ _ _ _ _ _ (fun col hcol => Or.inl ((hcost _ hfam2 col hcol).2))]
        exact hv.2⟩

theorem family_error_sentinel_witness :
    testWb.findSheet? (mkSheetName 2025 8) = some testSheet
    ∧ findDateRow testSheet 8 7 = some 4
    ∧ ("daily_alm_chat_count", "B", "C") ∈ columnMappings
    ∧ failAlmChat "daily_alm_chat_count" = true
    ∧ ∃ ws2, (fillDailyData testWb samplePd 2025 8 7 Option.none failAlmChat false).findSheet?
          (mkSheetName 2025 8) = some ws2
        ∧ (ws2.grid (colIdx "B") 4).value = PyValue.pyStr "ERROR"
        ∧ (ws2.grid (colIdx "C") 4).value = PyValue.pyStr "ERROR"
        ∧ ∀ key2 x2 y2, (key2, x2, y2) ∈ columnMappings → key2 ≠ "daily_alm_chat_count" →
            (ws2.grid (colIdx x2) 4).value = (writtenPair failAlmChat samplePd key2).1
            ∧ (ws2.grid (colIdx y2) 4).value = (writtenPair failAlmChat samplePd key2).2 :=
  ⟨rfl, by decide, by decide, rfl,
    family_error_sentinel testWb samplePd 2025 8 7 Option.none failAlmChat false testSheet 4
      "daily_alm_chat_count" "B" "C" rfl (by decide) (by decide) rfl⟩

/-- C10: when the supplied cost mapping is None or empty, the whole cost block
is skipped (`if mtd_costs:` is falsy), so the four cost columns J, K, L, M
keep their prior cells — values, styles and hyperlinks — in every row, while
a non-empty mapping would have zero-filled the unsupplied slots. -/
theorem empty_costs_leave_cost_columns (wb : Workbook) (pd : ProcessData) (y m d : Nat)
    (mtd : Option (List (String × PyValue))) (excRaised : String → Bool)
    (costExcRaised : Bool) (ws : Sheet) (row : Nat)
    (hws : wb.findSheet? (mkSheetName y m) = some ws)
    (hrow : findDateRow ws m d = some row)
    (hmtd : mtd = Option.none ∨ mtd = some []) :
    ∃ ws2, (fillDailyData wb pd y m d mtd excRaised costExcRaised).findSheet?
        (mkSheetName y m) = some ws2
      ∧ ∀ col ∈ costColLetters, ∀ r, ws2.grid (colIdx col) r = ws.grid (colIdx col) r := by
  have hcost : ∀ col ∈ costColLetters, ∀ f ∈ columnMappings,
      colIdx col ≠ colIdx f.2.1 ∧ colIdx col ≠ colIdx f.2.2 := by decide
  refine ⟨_, fillDailyData_found wb pd y m d mtd excRaised costExcRaised ws row hws hrow, ?_⟩
  intro col hcol r
  have hskip : fillCosts (columnMappings.foldl (fillFamily excRaised pd row) ws) mtd row
      costExcRaised = columnMappings.foldl (fillFamily excRaised pd row) ws := by
    rcases hmtd with rfl | rfl
    · rfl
    · rfl
  rw [hskip]
  exact famFold_frame excRaised pd row columnMappings ws (colIdx col) r
    (fun f hf => Or.inl ⟨(hcost col hcol f hf).1, (hcost col hcol f hf).2⟩)

theorem empty_costs_leave_cost_columns_witness :
    testWb.findSheet? (mkSheetName 2025 8) = some testSheet
    ∧ findDateRow testSheet 8 7 = some 4
    ∧ ((Option.none : Option (List (String × PyValue))) = Option.none
        ∨ (Option.none : Option (List (String × PyValue))) = some [])
    ∧ ∃ ws2, (fillDailyData testWb samplePd 2025 8 7 Option.none noFailure false).findSheet?
          (mkSheetName 2025 8) = some ws2
        ∧ ∀ col ∈ costColLetters, ∀ r,
            ws2.grid (colIdx col) r = testSheet.grid (colIdx col) r :=
  ⟨rfl, by decide, Or.inl rfl,
    empty_costs_leave_cost_columns testWb samplePd 2025 8 7 Option.none noFailure false
      testSheet 4 rfl (by decide) (Or.inl rfl)⟩

theorem skipKeep (ws : Sheet) (colLetter : String) (row : Nat) (v : PyValue) (c : Nat)
    (h : c ≠ colIdx colLetter) :
    (setCellKeep ws colLetter row v).grid c row = ws.grid c row :=
  grid_setCellKeep_other ws colLetter row v c row (Or.inl h)

/-- C8: a non-empty cost mapping with k entries writes its first min(k, 4)
entries into J, K, L, M in mapping order at the target row, zero-fills the
4 - min(k, 4) remaining cost columns, and touches no other cell — entries
beyond the fourth in particular are written nowhere. -/
theorem mtd_costs_written (ws : Sheet) (items : List (String × PyValue)) (row : Nat)
    (hne : items ≠ []) :
    (∀ i, i < min items.length 4 →
      ((fillCosts ws (some items) row false).grid (colIdx (costColLetters.getD i "")) row).value
        = (items.getD i ("", PyValue.pyNone)).2)
    ∧ (∀ i, items.length ≤ i → i < 4 →
      ((fillCosts ws (some items) row false).grid (colIdx (costColLetters.getD i "")) row).value
        = PyValue.pyInt 0)
    ∧ (∀ c r, (∀ col ∈ costColLetters, c ≠ colIdx col) ∨ r ≠ row →
      (fillCosts ws (some items) row false).grid c r = ws.grid c r) := by
  have hframe : ∀ c r, ((∀ col ∈ costColLetters, c ≠ colIdx col) ∨ r ≠ row) →
      (fillCosts ws (some items) row false).grid c r = ws.grid c r := by
    intro c r h
    apply fillCosts_frame
    intro col hcol
    rcases h with h | h
    · exact Or.inl (h col hcol)
    · exact Or.inr h
  rcases items with _ | ⟨a, items1⟩
  · exact absurd rfl hne
  rcases items1 with _ | ⟨b, items2⟩
  · refine ⟨?_, ?_, hframe⟩
    · intro i hi
      have h0 : i = 0 := by simp at hi; omega
      subst h0
      show ((setCellKeep (setCellKeep (setCellKeep (setCellKeep ws "J" row a.2) "K" row
          (.pyInt 0)) "L" row (.pyInt 0)) "M" row (.pyInt 0)).grid (colIdx "J") row).value = a.2
      rw [skipKeep _ _ _ _ _ (by decide), skipKeep _ _ _ _ _ (by decide),
        skipKeep _ _ _ _ _ (by decide)]
      exact value_setCellKeep_at _ _ _ _ _ rfl
    · intro i h1 h4
      simp only [List.length_cons, List.length_nil] at h1
      interval_cases i
      · show ((setCellKeep (setCellKeep (setCellKeep (setCellKeep ws "J" row a.2) "K" row
            (.pyInt 0)) "L" row (.pyInt 0)) "M" row (.pyInt 0)).grid (colIdx "K") row).value
          = PyValue.pyInt 0
        rw [skipKeep _ _ _ _ _ (by decide), skipKeep _ _ _ _ _ (by decide)]
        exact value_setCellKeep_at _ _ _ _ _ rfl
      · show ((setCellKeep (setCellKeep (setCellKeep (setCellKeep ws "J" row a.2) "K" row
            (.pyInt 0)) "L" row (.pyInt 0)) "M" row (.pyInt 0)).grid (colIdx "L") row).value
          = PyValue.pyInt 0
        rw [skipKeep _ _ _ _ _ (by decide)]
        exact value_setCellKeep_at _ _ _ _ _ rfl
      · exact value_setCellKeep_at _ _ _ _ _ rfl
  rcases items2 with _ | ⟨c0, items3⟩
  · refine ⟨?_, ?_, hframe⟩
    · intro i hi
      have h01 : i = 0 ∨ i = 1 := by simp at hi; omega
      rcases h01 with rfl | rfl
      · show ((setCellKeep (setCellKeep (setCellKeep (setCellKeep ws "J" row a.2) "K" row
            b.2) "L" row (.pyInt 0)) "M" row (.pyInt 0)).grid (colIdx "J") row).value = a.2
        rw [skipKeep _ _ _ _ _ (by decide), skipKeep _ _ _ _ _ (by decide),
          skipKeep _ _ _ _ _ (by decide)]
        exact value_setCellKeep_at _ _ _ _ _ rfl
      · show ((setCellKeep (setCellKeep (setCellKeep (setCellKeep ws "J" row a.2) "K" row
            b.2) "L" row (.pyInt 0)) "M" row (.pyInt 0)).grid (colIdx "K") row).value = b.2
        rw [skipKeep _ _ _ _ _ (by decide), skipKeep _ _ _ _ _ (by decide)]
        exact value_setCellKeep_at _ _ _ _ _ rfl
    · intro i h1 h4
      simp only [List.length_cons, List.length_nil] at h1
      interval_cases i
      · show ((setCellKeep (setCellKeep (setCellKeep (setCellKeep ws "J" row a.2) "K" row
            b.2) "L" row (.pyInt 0)) "M" row (.pyInt 0)).grid (colIdx "L") row).value
          = PyValue.pyInt 0
        rw [skipKeep _ _ _ _ _ (by decide)]
        exact value_setCellKeep_at _ _ _ _ _ rfl
      · exact value_setCellKeep_at _ _ _ _ _ rfl
  rcases items3 with _ | ⟨d0, items4⟩
  · refine ⟨?_, ?_, hframe⟩
    · intro i hi
      have h012 : i = 0 ∨ i = 1 ∨ i = 2 := by simp at hi; omega
      rcases h012 with rfl | rfl | rfl
      · show ((setCellKeep (setCellKeep (setCellKeep (setCellKeep ws "J" row a.2) "K" row
            b.2) "L" row c0.2) "M" row (.pyInt 0)).grid (colIdx "J") row).value = a.2
        rw [skipKeep _ _ _ _ _ (by decide), skipKeep _ _ _ _ _ (by decide),
          skipKeep _ _ _ _ _ (by decide)]
        exact value_setCellKeep_at _ _ _ _ _ rfl
      · show ((setCellKeep (setCellKeep (setCellKeep (setCellKeep ws "J" row a.2) "K" row
            b.2) "L" row c0.2) "M" row (.pyInt 0)).grid (colIdx "K") row).value = b.2
        rw [skipKeep _ _ _ _ _ (by decide), skipKeep _ _ _ _ _ (by decide)]
        exact value_setCellKeep_at _ _ _ _ _ rfl
      · show ((setCellKeep (setCellKeep (setCellKeep (setCellKeep ws "J" row a.2) "K" row
            b.2) "L" row c0.2) "M" row (.pyInt 0)).grid (colIdx "L") row).value = c0.2
        rw [skipKeep _ _ _ _ _ (by decide)]
        exact value_setCellKeep_at _ _ _ _ _ rfl
    · intro i h1 h4
      simp only [List.length_cons, List.length_nil] at h1
      interval_cases i
      · exact value_setCellKeep_at _ _ _ _ _ rfl
  · refine ⟨?_, ?_, hframe⟩
    · intro i hi
      have h0123 : i = 0 ∨ i = 1 ∨ i = 2 ∨ i = 3 := by simp at hi; omega
      have hdrop : List.drop (a :: b :: c0 :: d0 :: items4).length costColLetters = [] :=
        List.drop_eq_nil_of_le (by simp [costColLetters])
      have hred : fillCosts ws (some (a :: b :: c0 :: d0 :: items4)) row false
          = setCellKeep (setCellKeep (setCellKeep (setCellKeep ws "J" row a.2) "K" row b.2)
              "L" row c0.2) "M" row d0.2 := by
        unfold fillCosts
        dsimp only
        rw [hdrop]
        rfl
      rcases h0123 with rfl | rfl | rfl | rfl
      · show ((fillCosts ws (some (a :: b :: c0 :: d0 :: items4)) row false).grid
            (colIdx "J") row).value = a.2
        rw [hred, skipKeep _ _ _ _ _ (by decide), skipKeep _ _ _ _ _ (by decide),
          skipKeep _ _ _ _ _ (by decide)]
        exact value_setCellKeep_at _ _ _ _ _ rfl
      · show ((fillCosts ws (some (a :: b :: c0 :: d0 :: items4)) row false).grid
            (colIdx "K") row).value = b.2
        rw [hred, skipKeep _ _ _ _ _ (by decide), skipKeep _ _ _ _ _ (by decide)]
        exact value_setCellKeep_at _ _ _ _ _ rfl
      · show ((fillCosts ws (some (a :: b :: c0 :: d0 :: items4)) row false).grid
            (colIdx "L") row).value = c0.2
        rw [hred, skipKeep _ _ _ _ _ (by decide)]
        exact value_setCellKeep_at _ _ _ _ _ rfl
      · show ((fillCosts ws (some (a :: b :: c0 :: d0 :: items4)) row false).grid
            (colIdx "M") row).value = d0.2
        rw [hred]
        exact value_setCellKeep_at _ _ _ _ _ rfl
    · intro i h1 h4
      simp only [List.length_cons] at h1
      omega

theorem mtd_costs_written_witness :
    ([("A", PyValue.pyFloat 10), ("B", PyValue.pyFloat 20)] : List (String × PyValue)) ≠ []
    ∧ ((∀ i, i < min ([("A", PyValue.pyFloat 10), ("B", PyValue.pyFloat 20)] :
            List (String × PyValue)).length 4 →
        ((fillCosts testSheet (some [("A", PyValue.pyFloat 10), ("B", PyValue.pyFloat 20)]) 7
            false).grid (colIdx (costColLetters.getD i "")) 7).value
          = (([("A", PyValue.pyFloat 10), ("B", PyValue.pyFloat 20)] :
              List (String × PyValue)).getD i ("", PyValue.pyNone)).2)
      ∧ (∀ i, ([("A", PyValue.pyFloat 10), ("B", PyValue.pyFloat 20)] :
            List (String × PyValue)).length ≤ i → i < 4 →
        ((fillCosts testSheet (some [("A", PyValue.pyFloat 10), ("B", PyValue.pyFloat 20)]) 7
            false).grid (colIdx (costColLetters.getD i "")) 7).value = PyValue.pyInt 0)
      ∧ (∀ c r, (∀ col ∈ costColLetters, c ≠ colIdx col) ∨ r ≠ 7 →
        (fillCosts testSheet (some [("A", PyValue.pyFloat 10), ("B", PyValue.pyFloat 20)]) 7
            false).grid c r = testSheet.grid c r)) :=
  ⟨by simp,
    mtd_costs_written testSheet [("A", PyValue.pyFloat 10), ("B", PyValue.pyFloat 20)] 7
      (by simp)⟩

theorem writeRowCells_frame : ∀ (vals : List PyValue) (start : Nat) (ws : Sheet)
    (rowIdx c r : Nat), (c < start ∨ r ≠ rowIdx) →
    (((enumFrom2 start vals).foldl
        (fun ws p => setCellAt ws p.1 rowIdx (sanitizeExcelValue p.2)) ws).grid c r)
      = ws.grid c r := by
  intro vals
  induction vals with
  | nil => intro start ws rowIdx c r _; rfl
  | cons v vs ih =>
    intro start ws rowIdx c r h
    rw [show enumFrom2 start (v :: vs) = (start, v) :: enumFrom2 (start + 1) vs from rfl,
      List.foldl_cons,
      ih (start + 1) _ rowIdx c r
        (by rcases h with h | h; exacts [Or.inl (by omega), Or.inr h])]
    exact updateGrid_other _ _ _ _ _ _
      (by rcases h with h | h; exacts [Or.inl (by omega), Or.inr h])

theorem writeRowCells_value : ∀ (vals : List PyValue) (start : Nat) (ws : Sheet)
    (rowIdx c : Nat), start ≤ c → c < start + vals.length →
    ((((enumFrom2 start vals).foldl
        (fun ws p => setCellAt ws p.1 rowIdx (sanitizeExcelValue p.2)) ws).grid c rowIdx).value)
      = sanitizeExcelValue (vals.getD (c - start) .pyNone) := by
  intro vals
  induction vals with
  | nil => intro start ws rowIdx c h1 h2; simp at h2; omega
  | cons v vs ih =>
    intro start ws rowIdx c h1 h2
    rw [show enumFrom2 start (v :: vs) = (start, v) :: enumFrom2 (start + 1) vs from rfl,
      List.foldl_cons]
    by_cases hc : c = start
    · subst hc
      rw [writeRowCells_frame vs (c + 1) _ rowIdx c rowIdx (Or.inl (by omega)),
        show c - c = 0 from by omega]
      show (updateGrid ws.grid c rowIdx
        (assignValue (ws.grid c rowIdx) (sanitizeExcelValue v)) c rowIdx).value = _
      rw [updateGrid_same]
      rfl
    · rw [ih (start + 1) _ rowIdx c (by omega) (by simp at h2 ⊢; omega)]
      congr 1
      have hcs : c - start = (c - (start + 1)) + 1 := by omega
      rw [hcs]
      rfl

theorem fillHistoryRows_frame : ∀ (rows : List (List PyValue)) (start : Nat) (ws : Sheet)
    (c r : Nat), r < start →
    (((enumFrom2 start rows).foldl (fun ws p => writeRowCells ws p.1 p.2) ws).grid c r)
      = ws.grid c r := by
  intro rows
  induction rows with
  | nil => intro start ws c r _; rfl
  | cons row0 rest ih =>
    intro start ws c r h
    rw [show enumFrom2 start (row0 :: rest) = (start, row0) :: enumFrom2 (start + 1) rest
        from rfl,
      List.foldl_cons, ih (start + 1) _ c r (by omega)]
    exact writeRowCells_frame row0 1 ws start c r (Or.inr (by omega))

theorem fillHistoryRows_value : ∀ (rows : List (List PyValue)) (start : Nat) (ws : Sheet)
    (c r : Nat), start ≤ r → r < start + rows.length →
    1 ≤ c → c < 1 + (rows.getD (r - start) []).length →
    ((((enumFrom2 start rows).foldl (fun ws p => writeRowCells ws p.1 p.2) ws).grid c r).value)
      = sanitizeExcelValue ((rows.getD (r - start) []).getD (c - 1) .pyNone) := by
  intro rows
  induction rows with
  | nil => intro start ws c r h1 h2; simp at h2; omega
  | cons row0 rest ih =>
    intro start ws c r h1 h2 hc1 hc2
    rw [show enumFrom2 start (row0 :: rest) = (start, row0) :: enumFrom2 (start + 1) rest
        from rfl,
      List.foldl_cons]
    by_cases hr : r = start
    · subst hr
      rw [fillHistoryRows_frame rest (r + 1) _ c r (by omega)]
      rw [show r - r = 0 from by omega] at hc2 ⊢
      rw [show ((row0 :: rest).getD 0 []) = row0 from rfl] at hc2 ⊢
      exact writeRowCells_value row0 1 ws r c hc1 hc2
    · rw [show r - start = (r - (start + 1)) + 1 from by omega] at hc2 ⊢
      rw [show ((row0 :: rest).getD ((r - (start + 1)) + 1) []) = rest.getD (r - (start + 1)) []
          from rfl] at hc2 ⊢
      exact ih (start + 1) _ c r (by omega) (by simp at h2 ⊢; omega) hc1 hc2

/-- C9: every scalar written into a history category sheet goes through
`_sanitize_excel_value` first, and the sanitizer passes int/float and
datetime/date/time values through unchanged, removes the illegal control
characters of any string and caps its length at 32767, and coerces any other
value to string form before applying the same removal and cap. -/
theorem history_values_sanitized (ws : Sheet) (tbl : Table) (i j : Nat)
    (hi : i < tbl.rows.length) (hj : j < (tbl.rows.getD i []).length) :
    ((fillHistoryRows ws tbl).grid (j + 1) (i + 2)).value
        = sanitizeExcelValue ((tbl.rows.getD i []).getD j .pyNone)
    ∧ (∀ n, sanitizeExcelValue (.pyInt n) = .pyInt n)
    ∧ (∀ x, sanitizeExcelValue (.pyFloat x) = .pyFloat x)
    ∧ (∀ t, sanitizeExcelValue (.pyDatetime t) = .pyDatetime t)
    ∧ (∀ t, sanitizeExcelValue (.pyDate t) = .pyDate t)
    ∧ (∀ t, sanitizeExcelValue (.pyTime t) = .pyTime t)
    ∧ (∀ s, ∃ out, sanitizeExcelValue (.pyStr s) = .pyStr out
        ∧ out.toList = (s.toList.filter (fun ch => !(isIllegalChar ch))).take 32767
        ∧ (∀ ch ∈ out.toList, isIllegalChar ch = false)
        ∧ out.length ≤ 32767)
    ∧ (∀ s, ∃ out, sanitizeExcelValue (.pyObj s) = .pyStr out
        ∧ out.toList = (s.toList.filter (fun ch => !(isIllegalChar ch))).take 32767)
    ∧ (∀ s, ∃ out, sanitizeExcelValue (.pyBytes s) = .pyStr out
        ∧ out.toList = (s.toList.filter (fun ch => !(isIllegalChar ch))).take 32767) := by
  have htr : ∀ s : String, (truncateTo (stripIllegal s) 32767).toList
      = (s.toList.filter (fun ch => !(isIllegalChar ch))).take 32767 := by
    intro s
    unfold truncateTo stripIllegal
    split
    · rfl
    · next hlen =>
      show (String.mk (s.toList.filter _)).data = _
      rw [List.take_of_length_le]
      simpa [String.length] using hlen
  refine ⟨?_, fun n => rfl, fun x => rfl, fun t => rfl, fun t => rfl, fun t => rfl,
    ?_, ?_, ?_⟩
  · have hval := fillHistoryRows_value tbl.rows 2 ws (j + 1) (i + 2)
      (by omega) (by omega) (by omega)
      (by rw [show i + 2 - 2 = i from by omega]; omega)
    rw [show i + 2 - 2 = i from by omega, show j + 1 - 1 = j from by omega] at hval
    exact hval
  · intro s
    refine ⟨truncateTo (stripIllegal s) 32767, rfl, htr s, ?_, ?_⟩
    · intro ch hch
      rw [htr s] at hch
      have := List.mem_of_mem_take hch
      simpa using (List.mem_filter.mp this).2
    · show (truncateTo (stripIllegal s) 32767).data.length ≤ 32767
      have : (truncateTo (stripIllegal s) 32767).data
          = (s.toList.filter (fun ch => !(isIllegalChar ch))).take 32767 := htr s
      rw [this, List.length_take]
      omega
  · intro s
    exact ⟨truncateTo (stripIllegal s) 32767, rfl, htr s⟩
  · intro s
    exact ⟨truncateTo (stripIllegal s) 32767, rfl, htr s⟩

theorem history_values_sanitized_witness :
    0 < longMessyTable.rows.length
    ∧ 0 < (longMessyTable.rows.getD 0 []).length
    ∧ (((fillHistoryRows testSheet longMessyTable).grid (0 + 1) (0 + 2)).value
        = sanitizeExcelValue ((longMessyTable.rows.getD 0 []).getD 0 .pyNone)
      ∧ (∀ n, sanitizeExcelValue (.pyInt n) = .pyInt n)
      ∧ (∀ x, sanitizeExcelValue (.pyFloat x) = .pyFloat x)
      ∧ (∀ t, sanitizeExcelValue (.pyDatetime t) = .pyDatetime t)
      ∧ (∀ t, sanitizeExcelValue (.pyDate t) = .pyDate t)
      ∧ (∀ t, sanitizeExcelValue (.pyTime t) = .pyTime t)
      ∧ (∀ s, ∃ out, sanitizeExcelValue (.pyStr s) = .pyStr out
          ∧ out.toList = (s.toList.filter (fun ch => !(isIllegalChar ch))).take 32767
          ∧ (∀ ch ∈ out.toList, isIllegalChar ch = false)
          ∧ out.length ≤ 32767)
      ∧ (∀ s, ∃ out, sanitizeExcelValue (.pyObj s) = .pyStr out
          ∧ out.toList = (s.toList.filter (fun ch => !(isIllegalChar ch))).take 32767)
      ∧ (∀ s, ∃ out, sanitizeExcelValue (.pyBytes s) = .pyStr out
          ∧ out.toList = (s.toList.filter (fun ch => !(isIllegalChar ch))).take 32767)) :=
  ⟨Nat.zero_lt_one, Nat.zero_lt_one,
    history_values_sanitized testSheet longMessyTable 0 0 Nat.zero_lt_one Nat.zero_lt_one⟩

/-- C1 counterexample: a run whose cumulative usage report fails to persist.
The run's result is the re-raised failure and the history flag is `false`:
the dated history workbook build step does not execute, refuting the claim
that it is still attempted. -/
theorem usage_persist_failure_skips_history :
    generate_daily_monitor_report (.error (.persistFailure "save failed"))
        (.ok "market_gai_history_20250807.xlsx")
      = (.error (.persistFailure "save failed"), false) := rfl

/-- C1 (amended): when building or persisting the cumulative usage report
fails — the exception surfaces from a failed workbook open or a failed save,
both of which `_fill_template_with_data` re-raises — the exception propagates
out of `generate_daily_monitor_report` and the history report build step is
not attempted in that run. -/
theorem usage_failure_aborts_run :
    (∀ (e : ReportError) (historyStep : Except ReportError String),
      generate_daily_monitor_report (.error e) historyStep = (.error e, false))
    ∧ (∀ (e : ReportError) (saveResult : Workbook → Except ReportError Unit)
        (pd : ProcessData) (y m d : Nat) (mtd : Option (List (String × PyValue)))
        (excRaised : String → Bool) (costExcRaised : Bool),
      fill_template_with_data (.error e) saveResult pd y m d mtd excRaised costExcRaised
        = .error e)
    ∧ (∀ (e : ReportError) (wb : Workbook) (pd : ProcessData) (y m d : Nat)
        (mtd : Option (List (String × PyValue))) (excRaised : String → Bool)
        (costExcRaised : Bool),
      fill_template_with_data (.ok wb) (fun _ => .error e) pd y m d mtd excRaised
        costExcRaised = .error e) :=
  ⟨fun _ _ => rfl, fun _ _ _ _ _ _ _ _ _ => rfl, fun _ _ _ _ _ _ _ _ _ => rfl⟩

theorem thirty_day_month_labels_witness :
    (mkSheetName 2025 4 ∉ Workbook.sheetnames ⟨[]⟩)
    ∧ monthLength 2025 4 = 30
    ∧ (∃ sh, (ensureMonthSheetExists ⟨[]⟩ 2025 4).findSheet? (mkSheetName 2025 4) = some sh
        ∧ (∀ d, 1 ≤ d → d ≤ 30 → ∀ c ∈ labelColumns,
            (sh.grid c (d + 3)).value = PyValue.pyStr (mkDayLabel 4 d))
        ∧ (∀ r, 34 ≤ r → r ≤ 40 → ∀ c ∈ labelColumns,
            (sh.grid c r).value = PyValue.pyNone)) :=
  ⟨by simp [Workbook.sheetnames], by decide,
    thirty_day_month_labels ⟨[]⟩ 2025 4 (by simp [Workbook.sheetnames]) (by decide)⟩

end Monitor
